import Mathlib

/-!
Verification of the Note-Manager ledger (src/views.py, src/manage.py).

Shallow embedding conventions:
* Python floats are modelled as exact rationals (ℚ); float representation
  artifacts are out of scope.
* The Python value `False` that `check_cat_amt_desc` can return in place of
  an amount is modelled by the constructor `AmtVal.falseV`; Python's
  `bool`/number comparison semantics (`False == 0` is `True`, `abs(False) = 0`,
  `False` contributes 0 to a sum) are modelled by `toQ`.
* A record's description is either a string or a list of words (the raw
  `argparse` value leaks through on one code path), modelled by `DescVal`.
* The on-disk JSON document is modelled by `List Note`; every operation of
  `NoteManager` ends by writing the whole document back, so threading the
  list through the operations coincides with the file round-trips.
* `print` calls that carry an outcome are modelled by the `Msg` list an
  operation returns; purely decorative output (separator lines, the
  "db.txt has been created" notices) is not modelled.
-/

namespace NoteManager

/-- The value stored in a record's `amount` cell: a number, or the Python
`False` that `check_cat_amt_desc` returns for a negative submitted amount. -/
inductive AmtVal where
  | num (q : ℚ)
  | falseV
deriving DecidableEq

/-- Numeric value Python uses when an `AmtVal` meets `==`, `abs` or `sum`
(`False` counts as 0). -/
def toQ : AmtVal → ℚ
  | .num q => q
  | .falseV => 0

/-- Python truthiness of an amount value (`if not amt`): `False` and `0.0`
are falsy. -/
def truthy : AmtVal → Bool
  | .num q => decide (q ≠ 0)
  | .falseV => false

/-- Python `==` between amount cells (`False == 0.0` is `True`). -/
def eqAmt (a b : AmtVal) : Bool := decide (toQ a = toQ b)

/-- Python `abs` of an amount cell (`abs(False) = 0`). -/
def absAmt (a : AmtVal) : ℚ := if toQ a < 0 then -toQ a else toQ a

/-- The value stored in a record's `description` cell: normally a string,
but the raw `argparse` word list on the `update_note` invalid-new-amount
path, where `check_cat_amt_desc` returns early before the join. -/
inductive DescVal where
  | str (s : String)
  | lst (l : List String)
deriving DecidableEq

/-- `if desc: desc = " ".join(desc)` from `check_cat_amt_desc`: a falsy
description (empty string or empty list) is left alone, a word list is
joined with spaces, a non-empty string is joined character-wise
(Python iterates a string by characters). -/
def joinDesc : DescVal → DescVal
  | .str s => if s = "" then .str "" else
      .str (String.intercalate " " (s.data.map Char.toString))
  | .lst l => if l = [] then .lst [] else .str (String.intercalate " " l)

/-- One record of the database: the four single-key dicts produced by
`create_note_template` (`date`, `category`, `amount`, `description`). -/
structure Note where
  date : String
  category : String
  amount : AmtVal
  description : DescVal
deriving DecidableEq

/-- `create_note_template(date, cat, amt, desc)`. -/
def createNoteTemplate (date cat : String) (amt : AmtVal) (desc : DescVal) :
    Note := ⟨date, cat, amt, desc⟩

/-- Python `==` between two records (lists of dicts compare value-wise,
so the amount cells compare through `toQ`). -/
def noteEqPy (a b : Note) : Bool :=
  a.date == b.date && a.category == b.category &&
    eqAmt a.amount b.amount && decide (a.description = b.description)

/-- Split a character list on the dash separator
(`"2024-01-15".split("-")`). -/
def splitOnDash (l : List Char) : List (List Char) :=
  match l with
  | [] => [[]]
  | c :: rest =>
    let r := splitOnDash rest
    if c = '-' then [] :: r
    else
      match r with
      | [] => [[c]]
      | g :: gs => (c :: g) :: gs

def digitsToNat (l : List Char) : ℕ :=
  l.foldl (fun a c => a * 10 + (c.toNat - 48)) 0

def allDigits (l : List Char) : Bool := l.all Char.isDigit

def isLeap (y : ℕ) : Bool :=
  (decide (y % 4 = 0) && decide (y % 100 ≠ 0)) || decide (y % 400 = 0)

def daysInMonth (y m : ℕ) : ℕ :=
  if m = 2 then (if isLeap y then 29 else 28)
  else if m = 4 ∨ m = 6 ∨ m = 9 ∨ m = 11 then 30
  else 31

/-- `check_date(date)`: whether `datetime.date.fromisoformat` accepts the
string — modelled for the canonical zero-padded `YYYY-MM-DD` form. -/
def checkDate (s : String) : Bool :=
  match splitOnDash s.data with
  | [y, m, d] =>
    decide (y.length = 4) && decide (m.length = 2) && decide (d.length = 2) &&
    allDigits y && allDigits m && allDigits d &&
    (let Y := digitsToNat y
     let M := digitsToNat m
     let D := digitsToNat d
     decide (1 ≤ Y) && decide (1 ≤ M) && decide (M ≤ 12) &&
       decide (1 ≤ D) && decide (D ≤ daysInMonth Y M))
  | _ => false

/-- `check_cat_amt_desc(cat, amt, desc)`: a negative amount is replaced by
Python `False` and everything else returned unchanged (the invalid-amount
message is printed at this point); otherwise the category code is turned
into its label, the amount is negated for category "1", and the
description is joined. -/
def checkCatAmtDesc (cat : String) (amt : ℚ) (desc : DescVal) :
    String × AmtVal × DescVal :=
  if amt < 0 then (cat, .falseV, desc)
  else if cat = "1" then ("waste", .num (-amt), joinDesc desc)
  else ("income", .num amt, joinDesc desc)

/-- Python's `round` (banker's rounding, half to even) on an exact
rational. -/
def pyRound (q : ℚ) : ℤ :=
  if q - ⌊q⌋ < 1 / 2 then ⌊q⌋
  else if q - ⌊q⌋ > 1 / 2 then ⌊q⌋ + 1
  else if ⌊q⌋ % 2 = 0 then ⌊q⌋ else ⌊q⌋ + 1

/-- `round(q, 2)`. -/
def round2 (q : ℚ) : ℚ := (pyRound (q * 100) : ℚ) / 100

/-- The sum in `get_current_balance`: every `amount` cell of every record
(Python `sum` counts `False` as 0). -/
def sumAmounts (notes : List Note) : ℚ := (notes.map (fun n => toQ n.amount)).sum

/-- `get_current_balance()`: the rounded sum when the document is
non-empty, the literal 0 otherwise. -/
def getCurrentBalance (notes : List Note) : ℚ :=
  if notes = [] then 0 else round2 (sumAmounts notes)

/-- The `NoteManager` state: the document on disk and the cached
`self.__balance` attribute. -/
structure MState where
  notes : List Note
  balance : ℚ
deriving DecidableEq

/-- User-visible outcome messages of the operations. -/
inductive Msg where
  | missingArgs
  | emptyDb
  | invalidDate
  | invalidAmount
  | noDateMatch
  | noCategoryMatch
  | noAmountMatch
  | noDescriptionMatch
  | noMatches
  | created (n : Note)
  | updated (before after : Note)
  | deleted (n : Note)
  | found (l : List Note)
  | listed (l : List Note)
  | balanceShown (b : ℚ)
  | cleared
deriving DecidableEq

/-- `create_text_document`: returns early on an empty document, otherwise
rewrites `db.txt` and refreshes the cached balance from the document. -/
def createTextDocument (s : MState) : MState :=
  if s.notes = [] then s else ⟨s.notes, getCurrentBalance s.notes⟩

/-- Stage 1 of `filter_records`: the date filter over the whole document. -/
def stage1 (notes : List Note) (date : String) : List Note :=
  notes.filter (fun n => n.date == date)

/-- Stage 2: the category filter over stage 1's survivors. -/
def stage2 (notes : List Note) (date cat : String) : List Note :=
  (stage1 notes date).filter (fun n => n.category == cat)

/-- The amount comparison of stage 3 (signed Python `==`). -/
def matchAmtPred (amt : AmtVal) (n : Note) : Bool := eqAmt n.amount amt

/-- Stage 3: the amount filter over stage 2's survivors. -/
def stage3 (notes : List Note) (date cat : String) (amt : AmtVal) :
    List Note :=
  (stage2 notes date cat).filter (matchAmtPred amt)

/-- Stage 4: the description filter over stage 3's survivors. -/
def stage4 (notes : List Note) (date cat : String) (amt : AmtVal)
    (desc : DescVal) : List Note :=
  (stage3 notes date cat amt).filter (fun n => decide (n.description = desc))

/-- The conjunction of the four stage predicates of `filter_records`. -/
def matchPred (date cat : String) (amt : AmtVal) (desc : DescVal)
    (n : Note) : Bool :=
  (n.date == date) && (n.category == cat) && matchAmtPred amt n &&
    decide (n.description = desc)

/-- `db_data["notes"].index(x)`: index of the first record Python-equal to
`x`. -/
def indexOfNote (r : Note) (notes : List Note) : ℕ :=
  notes.findIdx (fun n => noteEqPy n r)

instance : DecidableEq (Except Msg (Note × ℕ)) := fun a b =>
  match a, b with
  | .error e, .error f => decidable_of_iff (e = f) (by simp)
  | .ok x, .ok y => decidable_of_iff (x = y) (by simp)
  | .error _, .ok _ => isFalse (by simp)
  | .ok _, .error _ => isFalse (by simp)

/-- `filter_records(db_data, date, cat, amt, desc, action)`: the four-stage
narrowing filter; the first stage left empty reports its own failure,
otherwise the head of the final stage is returned together with its
`.index` position in the document. -/
def filterRecords (notes : List Note) (date cat : String) (amt : AmtVal)
    (desc : DescVal) : Except Msg (Note × ℕ) :=
  if stage1 notes date = [] then .error .noDateMatch
  else if stage2 notes date cat = [] then .error .noCategoryMatch
  else if stage3 notes date cat amt = [] then .error .noAmountMatch
  else
    match stage4 notes date cat amt desc with
    | [] => .error .noDescriptionMatch
    | r :: _ => .ok (r, indexOfNote r notes)

/-- `create_note(cat, amt, desc)`. -/
def createNote (s : MState) (today : String) (cat : Option String)
    (amt : Option ℚ) (desc : DescVal) : MState × List Msg :=
  match cat, amt with
  | some c, some a =>
    let r := checkCatAmtDesc c a desc
    let msgs1 : List Msg := if a < 0 then [.invalidAmount] else []
    if ¬ truthy r.2.1 then (s, msgs1)
    else
      let note := createNoteTemplate today r.1 r.2.1 r.2.2
      let notes2 := s.notes ++ [note]
      (createTextDocument ⟨notes2, s.balance⟩, msgs1 ++ [.created note])
  | _, _ => (s, [.missingArgs])

/-- `read_notes()`. -/
def readNotes (s : MState) : MState × List Msg :=
  if s.notes = [] then (s, [.emptyDb]) else (s, [.listed s.notes])

/-- `update_note(pr_date, pr_cat, pr_amt, new_cat, new_amt, pr_desc,
new_desc)`. The second truthiness guard re-checks the previous amount,
exactly as the source does (`if not pr_amt` on line 117 of views.py). -/
def updateNote (s : MState) (today : String) (prDate prCat : Option String)
    (prAmt : Option ℚ) (newCat : Option String) (newAmt : Option ℚ)
    (prDesc newDesc : DescVal) : MState × List Msg :=
  match prDate, prCat, prAmt, newCat, newAmt with
  | some pd, some pc, some pa, some nc, some na =>
    if s.notes = [] then (s, [.emptyDb])
    else if ¬ checkDate pd then (s, [.invalidDate])
    else
      let pr := checkCatAmtDesc pc pa prDesc
      let msgs1 : List Msg := if pa < 0 then [.invalidAmount] else []
      if ¬ truthy pr.2.1 then (s, msgs1)
      else
        let nw := checkCatAmtDesc nc na newDesc
        let msgs2 := msgs1 ++ (if na < 0 then [.invalidAmount] else [])
        if ¬ truthy pr.2.1 then (s, msgs2)
        else
          match filterRecords s.notes pd pr.1 pr.2.1 pr.2.2 with
          | .error e => (s, msgs2 ++ [e])
          | .ok (r, i) =>
            let newNote := createNoteTemplate today nw.1 nw.2.1 nw.2.2
            let notes2 := s.notes.set i newNote
            (createTextDocument ⟨notes2, s.balance⟩,
              msgs2 ++ [.updated r newNote])
  | _, _, _, _, _ => (s, [.missingArgs])

/-- `delete_note(date, cat, amt, desc)`. -/
def deleteNote (s : MState) (date cat : Option String) (amt : Option ℚ)
    (desc : DescVal) : MState × List Msg :=
  match date, cat, amt with
  | some d, some c, some a =>
    if s.notes = [] then (s, [.emptyDb])
    else if ¬ checkDate d then (s, [.invalidDate])
    else
      let r := checkCatAmtDesc c a desc
      let msgs1 : List Msg := if a < 0 then [.invalidAmount] else []
      if ¬ truthy r.2.1 then (s, msgs1)
      else
        match filterRecords s.notes d r.1 r.2.1 r.2.2 with
        | .error e => (s, msgs1 ++ [e])
        | .ok (rec, i) =>
          let notes2 := s.notes.eraseIdx i
          if notes2 = [] then (⟨notes2, s.balance⟩, msgs1 ++ [.deleted rec])
          else (createTextDocument ⟨notes2, s.balance⟩, msgs1 ++ [.deleted rec])
  | _, _, _ => (s, [.missingArgs])

/-- Python truthiness of the optional string arguments in `find_notes`. -/
def truthyStr : Option String → Bool
  | none => false
  | some s => decide (s ≠ "")

/-- Python truthiness of the optional amount argument in `find_notes`
(`0.0` is falsy). -/
def truthyQ : Option ℚ → Bool
  | none => false
  | some q => decide (q ≠ 0)

/-- The amount comparison of `find_notes`
(`abs(note[2]["amount"]) == amt`). -/
def findAmtPred (a : ℚ) (n : Note) : Bool := absAmt n.amount == a

/-- `find_notes(date, cat, amt)`. -/
def findNotes (s : MState) (date cat : Option String) (amt : Option ℚ) :
    MState × List Msg :=
  if date = none ∧ cat = none ∧ amt = none then (s, [.missingArgs])
  else if s.notes = [] then (s, [.emptyDb])
  else if truthyStr date ∧ ¬ checkDate (date.getD "") then (s, [.invalidDate])
  else
    let r1 : List Note × Bool :=
      if truthyStr date then
        (s.notes.filter (fun n => n.date == date.getD ""), true)
      else ([], false)
    let r2 : List Note × Bool :=
      if truthyStr cat then
        let c := if cat.getD "" = "1" then "waste" else "income"
        ((if r1.2 then r1.1 else s.notes).filter (fun n => n.category == c),
          true)
      else r1
    let l3 : List Note :=
      if truthyQ amt then
        (if r2.2 then r2.1 else s.notes).filter (findAmtPred (amt.getD 0))
      else r2.1
    if l3 = [] then (s, [.noMatches]) else (s, [.found l3])

/-- `show_balance()`: displays the cached `self.__balance`. -/
def showBalance (s : MState) : MState × List Msg :=
  (s, [.balanceShown s.balance])

/-- `clear_notes()`: writes the empty template and deletes `db.txt`
(no balance refresh happens on this path). -/
def clearNotes (s : MState) : MState × List Msg :=
  (⟨[], s.balance⟩, [.cleared])

/-- The argument namespace produced by `argparse` in manage.py. -/
structure CLIArgs where
  createFlag : Bool := false
  readFlag : Bool := false
  updateFlag : Bool := false
  deleteFlag : Bool := false
  findFlag : Bool := false
  showFlag : Bool := false
  clearFlag : Bool := false
  date : Option String := none
  cat : Option String := none
  amt : Option ℚ := none
  desc : DescVal := .str ""
  newcat : Option String := none
  newamt : Option ℚ := none
  newdesc : DescVal := .str ""

/-- One conditional dispatch step of manage.py. -/
def step (acc : MState × List Msg) (flag : Bool)
    (op : MState → MState × List Msg) : MState × List Msg :=
  if flag then ((op acc.1).1, acc.2 ++ (op acc.1).2) else acc

/-- One CLI invocation (manage.py): `NoteManager()` is constructed, which
caches the balance of the document on disk, and then the requested
commands run in the fixed dispatch order create, read, update, delete,
find, show, clear. -/
def runCLI (notes0 : List Note) (today : String) (a : CLIArgs) :
    MState × List Msg :=
  let s0 : MState := ⟨notes0, getCurrentBalance notes0⟩
  let r1 := step (s0, []) a.createFlag
    (fun s => createNote s today a.cat a.amt a.desc)
  let r2 := step r1 a.readFlag readNotes
  let r3 := step r2 a.updateFlag
    (fun s => updateNote s today a.date a.cat a.amt a.newcat a.newamt
      a.desc a.newdesc)
  let r4 := step r3 a.deleteFlag
    (fun s => deleteNote s a.date a.cat a.amt a.desc)
  let r5 := step r4 a.findFlag (fun s => findNotes s a.date a.cat a.amt)
  let r6 := step r5 a.showFlag showBalance
  let r7 := step r6 a.clearFlag clearNotes
  r7

/-! ## Helper lemmas -/

theorem stage2_of_stage1_nil {notes : List Note} {date cat : String}
    (h : stage1 notes date = []) : stage2 notes date cat = [] := by
  simp [stage2, h]

theorem stage3_of_stage2_nil {notes : List Note} {date cat : String}
    {amt : AmtVal} (h : stage2 notes date cat = []) :
    stage3 notes date cat amt = [] := by
  simp [stage3, h]

theorem stage4_eq_filter (notes : List Note) (date cat : String)
    (amt : AmtVal) (desc : DescVal) :
    stage4 notes date cat amt desc = notes.filter (matchPred date cat amt desc) := by
  unfold stage4 stage3 stage2 stage1
  rw [List.filter_filter, List.filter_filter, List.filter_filter]
  apply List.filter_congr
  intro n _
  cases h1 : (n.date == date) <;> cases h2 : (n.category == cat) <;>
    cases h3 : matchAmtPred amt n <;> cases h4 : decide (n.description = desc) <;>
    simp [matchPred, h1, h2, h3, h4]

theorem noteEqPy_refl (n : Note) : noteEqPy n n = true := by
  simp [noteEqPy, eqAmt]

theorem matchPred_congr {a b : Note} (h : noteEqPy a b = true)
    (date cat : String) (amt : AmtVal) (desc : DescVal) :
    matchPred date cat amt desc a = matchPred date cat amt desc b := by
  simp only [noteEqPy, Bool.and_eq_true, beq_iff_eq, eqAmt,
    decide_eq_true_eq] at h
  obtain ⟨⟨⟨hd, hc⟩, ha⟩, hds⟩ := h
  simp [matchPred, matchAmtPred, eqAmt, hd, hc, ha, hds]

/-- If `r` is the head of `l.filter P` and `P` respects Python record
equality, then the `.index` of `r` (first Python-equal element) is the
index of the first element satisfying `P`, which is `r` itself. -/
theorem index_of_filter_head {l : List Note} {P : Note → Bool} {r : Note}
    {t : List Note} (hf : l.filter P = r :: t)
    (compat : ∀ a b, noteEqPy a b = true → P a = P b) :
    l.findIdx (fun n => noteEqPy n r) = l.findIdx P
    ∧ ∃ hi : l.findIdx P < l.length, l.get ⟨l.findIdx P, hi⟩ = r := by
  induction l with
  | nil => simp at hf
  | cons x xs ih =>
    cases hx : P x with
    | true =>
      rw [List.filter_cons_of_pos hx] at hf
      injection hf with h1 h2
      subst h1
      refine ⟨?_, ?_⟩
      · rw [List.findIdx_cons, List.findIdx_cons, noteEqPy_refl x, hx]
        rfl
      · simp only [List.findIdx_cons, hx, cond_true]
        exact ⟨by simp, rfl⟩
    | false =>
      rw [List.filter_cons_of_neg (by simp [hx])] at hf
      have hPr : P r = true := by
        have hmem : r ∈ List.filter P xs := by
          rw [hf]; exact List.mem_cons_self r t
        exact (List.mem_filter.mp hmem).2
      have hxr : noteEqPy x r = false := by
        cases he : noteEqPy x r with
        | true =>
          rw [compat x r he, hPr] at hx
          exact absurd hx (by simp)
        | false => rfl
      obtain ⟨ih1, hi, ih2⟩ := ih hf
      refine ⟨?_, ?_⟩
      · rw [List.findIdx_cons, List.findIdx_cons, hxr, hx]
        simp [ih1]
      · simp only [List.findIdx_cons, hx, cond_false]
        exact ⟨Nat.succ_lt_succ hi, ih2⟩

theorem createTextDocument_notes (s : MState) :
    (createTextDocument s).notes = s.notes := by
  rw [createTextDocument]; split <;> rfl

/-- Either `create_note` aborts (state unchanged) or it appends the record
derived by `check_cat_amt_desc` and refreshes via the text export. -/
theorem createNote_shape (s : MState) (today c : String) (a : ℚ)
    (dsc : DescVal) :
    (createNote s today (some c) (some a) dsc).1 = s
    ∨ (createNote s today (some c) (some a) dsc).1
        = createTextDocument ⟨s.notes ++ [createNoteTemplate today
            (checkCatAmtDesc c a dsc).1 (checkCatAmtDesc c a dsc).2.1
            (checkCatAmtDesc c a dsc).2.2], s.balance⟩ := by
  simp only [createNote]
  split_ifs <;> first | exact Or.inl rfl | exact Or.inr rfl

/-- Either `update_note` aborts (state unchanged) or it replaces the entry
at the matched index by the record derived from the "new" fields and
refreshes via the text export. -/
theorem updateNote_shape (s : MState) (today : String) (pd pc : String)
    (pa : ℚ) (nc : String) (na : ℚ) (pdsc ndsc : DescVal) :
    (updateNote s today (some pd) (some pc) (some pa) (some nc) (some na)
        pdsc ndsc).1 = s
    ∨ ∃ i, (updateNote s today (some pd) (some pc) (some pa) (some nc)
        (some na) pdsc ndsc).1
        = createTextDocument ⟨s.notes.set i (createNoteTemplate today
            (checkCatAmtDesc nc na ndsc).1 (checkCatAmtDesc nc na ndsc).2.1
            (checkCatAmtDesc nc na ndsc).2.2), s.balance⟩ := by
  simp only [updateNote]
  split_ifs <;> try exact Or.inl rfl
  all_goals rcases hf : filterRecords s.notes pd (checkCatAmtDesc pc pa pdsc).1 (checkCatAmtDesc pc pa pdsc).2.1 (checkCatAmtDesc pc pa pdsc).2.2 with e | ⟨r, i⟩
  all_goals first | exact Or.inl rfl | exact Or.inr ⟨i, rfl⟩

/-- Either `delete_note` aborts (state unchanged), or it removes the entry
at the matched index; if the document becomes empty no balance refresh
happens, otherwise the text export refreshes the balance. -/
theorem deleteNote_shape (s : MState) (d c : String) (a : ℚ)
    (dsc : DescVal) :
    (deleteNote s (some d) (some c) (some a) dsc).1 = s
    ∨ ∃ i, (s.notes.eraseIdx i = []
          ∧ (deleteNote s (some d) (some c) (some a) dsc).1
            = ⟨s.notes.eraseIdx i, s.balance⟩)
        ∨ (s.notes.eraseIdx i ≠ []
          ∧ (deleteNote s (some d) (some c) (some a) dsc).1
            = createTextDocument ⟨s.notes.eraseIdx i, s.balance⟩) := by
  simp only [deleteNote]
  split_ifs <;> try exact Or.inl rfl
  all_goals rcases hf : filterRecords s.notes d (checkCatAmtDesc c a dsc).1 (checkCatAmtDesc c a dsc).2.1 (checkCatAmtDesc c a dsc).2.2 with e | ⟨r, i⟩
  all_goals try exact Or.inl rfl
  all_goals refine Or.inr ⟨i, ?_⟩
  all_goals dsimp only
  all_goals split
  all_goals first
    | (rename_i he; exact Or.inl ⟨he, rfl⟩)
    | (rename_i he; exact Or.inr ⟨he, rfl⟩)

/-- `create_note` with a negative amount reports the invalid amount and
leaves the state unchanged. -/
theorem createNote_neg {a : ℚ} (h : a < 0) (s : MState) (today c : String)
    (d : DescVal) :
    createNote s today (some c) (some a) d = (s, [.invalidAmount]) := by
  have hck : checkCatAmtDesc c a d = (c, .falseV, d) := by
    rw [checkCatAmtDesc, if_pos h]
  simp only [createNote, hck]
  simp [truthy, h]

/-- `create_note` with amount 0 aborts silently: the zero amount is falsy,
so no record is appended and no message is printed. -/
theorem createNote_zero (s : MState) (today c : String) (d : DescVal) :
    createNote s today (some c) (some 0) d = (s, []) := by
  simp only [createNote, checkCatAmtDesc]
  by_cases hc : c = "1" <;> simp [hc, truthy]

/-- `create_note` with a positive amount appends the derived record and
refreshes through the text export. -/
theorem createNote_pos {a : ℚ} (h : 0 < a) (s : MState) (today c : String)
    (d : DescVal) :
    createNote s today (some c) (some a) d
      = (createTextDocument ⟨s.notes ++ [createNoteTemplate today
            (checkCatAmtDesc c a d).1 (checkCatAmtDesc c a d).2.1
            (checkCatAmtDesc c a d).2.2], s.balance⟩,
         [.created (createNoteTemplate today (checkCatAmtDesc c a d).1
            (checkCatAmtDesc c a d).2.1 (checkCatAmtDesc c a d).2.2)]) := by
  have hne : a ≠ 0 := ne_of_gt h
  have hnneg : ¬ a < 0 := by linarith
  have ht : truthy (checkCatAmtDesc c a d).2.1 = true := by
    rw [checkCatAmtDesc, if_neg hnneg]
    by_cases hc : c = "1" <;> simp [hc, truthy, hne]
  simp only [createNote, ht]
  simp [hnneg]

/-- Case analysis of `check_cat_amt_desc`. -/
theorem checkCatAmtDesc_cases (c : String) (a : ℚ) (d : DescVal) :
    (a < 0 ∧ checkCatAmtDesc c a d = (c, .falseV, d))
    ∨ (0 ≤ a ∧ c = "1"
        ∧ checkCatAmtDesc c a d = ("waste", .num (-a), joinDesc d))
    ∨ (0 ≤ a ∧ c ≠ "1"
        ∧ checkCatAmtDesc c a d = ("income", .num a, joinDesc d)) := by
  by_cases hneg : a < 0
  · exact Or.inl ⟨hneg, by rw [checkCatAmtDesc, if_pos hneg]⟩
  · by_cases hc : c = "1"
    · exact Or.inr (Or.inl ⟨le_of_not_lt hneg, hc,
        by rw [checkCatAmtDesc, if_neg hneg, if_pos hc]⟩)
    · exact Or.inr (Or.inr ⟨le_of_not_lt hneg, hc,
        by rw [checkCatAmtDesc, if_neg hneg, if_neg hc]⟩)

/-! ## Claims -/

/-- C4: the match procedure of update/delete filters in the fixed order
date, category, amount, description, each stage narrowing the previous
stage's survivors (each stage's set is a subset of the previous one); the
first empty stage determines the stage-specific failure, and since each
stage list does not depend on the later targets, later stages are never
evaluated. -/
theorem spec_C4 (notes : List Note) (date cat : String) (amt : AmtVal)
    (desc : DescVal) :
    stage2 notes date cat ⊆ stage1 notes date
    ∧ stage3 notes date cat amt ⊆ stage2 notes date cat
    ∧ stage4 notes date cat amt desc ⊆ stage3 notes date cat amt
    ∧ (stage1 notes date = [] →
        filterRecords notes date cat amt desc = .error .noDateMatch)
    ∧ (stage1 notes date ≠ [] → stage2 notes date cat = [] →
        filterRecords notes date cat amt desc = .error .noCategoryMatch)
    ∧ (stage2 notes date cat ≠ [] → stage3 notes date cat amt = [] →
        filterRecords notes date cat amt desc = .error .noAmountMatch)
    ∧ (stage3 notes date cat amt ≠ [] → stage4 notes date cat amt desc = [] →
        filterRecords notes date cat amt desc = .error .noDescriptionMatch) := by
  refine ⟨List.filter_subset' _, List.filter_subset' _, List.filter_subset' _,
    ?_, ?_, ?_, ?_⟩
  · intro h1
    rw [filterRecords, if_pos h1]
  · intro h1 h2
    rw [filterRecords, if_neg h1, if_pos h2]
  · intro h2 h3
    have h1 : stage1 notes date ≠ [] := fun h => h2 (stage2_of_stage1_nil h)
    rw [filterRecords, if_neg h1, if_neg h2, if_pos h3]
  · intro h3 h4
    have h2 : stage2 notes date cat ≠ [] := fun h => h3 (stage3_of_stage2_nil h)
    have h1 : stage1 notes date ≠ [] := fun h => h2 (stage2_of_stage1_nil h)
    rw [filterRecords, if_neg h1, if_neg h2, if_neg h3, h4]

/-- C4 witness: a document whose single record matches the target date but
not the target category yields `NoCategoryMatch`, not `NoAmountMatch`. -/
theorem spec_C4_witness :
    stage1 [⟨"2024-01-15", "income", .num 100, .str ""⟩] "2024-01-15" ≠ []
    ∧ stage2 [⟨"2024-01-15", "income", .num 100, .str ""⟩] "2024-01-15" "waste" = []
    ∧ filterRecords [⟨"2024-01-15", "income", .num 100, .str ""⟩] "2024-01-15"
        "waste" (.num (-40)) (.str "") = .error .noCategoryMatch :=
  ⟨by decide, by decide,
    (spec_C4 [⟨"2024-01-15", "income", .num 100, .str ""⟩] "2024-01-15"
      "waste" (.num (-40)) (.str "")).2.2.2.2.1 (by decide) (by decide)⟩

/-- C9: on an empty document, a find call that supplies at least one
filter reports the empty-store condition, before any filtering happens. -/
theorem spec_C9 (s : MState) (d c : Option String) (a : Option ℚ)
    (h1 : s.notes = []) (h2 : ¬(d = none ∧ c = none ∧ a = none)) :
    findNotes s d c a = (s, [.emptyDb]) := by
  rw [findNotes, if_neg h2, if_pos h1]

/-- C9 witness: `find(category=1)` on the empty store reports the
empty-store condition. -/
theorem spec_C9_witness :
    (⟨[], 0⟩ : MState).notes = []
    ∧ findNotes ⟨[], 0⟩ none (some "1") none = (⟨[], 0⟩, [.emptyDb]) :=
  ⟨rfl, spec_C9 ⟨[], 0⟩ none (some "1") none rfl (by simp)⟩

/-- C10: a zero amount filter passes the missing-arguments check but is
falsy, so the amount stage is skipped: with any date/category filter
supplied the call behaves exactly as if no amount filter were given, and
with 0 as the only filter the call reports no-matches on every non-empty
document (even one containing a record of amount 0). -/
theorem spec_C10 (s : MState) (d c : Option String) (h : s.notes ≠ []) :
    ((d ≠ none ∨ c ≠ none) →
      findNotes s d c (some 0) = findNotes s d c none)
    ∧ findNotes s none none (some 0) = (s, [.noMatches]) := by
  constructor
  · intro hdc
    have h0 : ¬(d = none ∧ c = none ∧ (some (0 : ℚ)) = none) := by simp
    have h0' : ¬(d = none ∧ c = none ∧ (none : Option ℚ) = none) := by
      rcases hdc with h' | h' <;> simp [h']
    rw [findNotes, findNotes, if_neg h0, if_neg h0']
    simp [truthyQ]
  · have h0 : ¬((none : Option String) = none ∧ (none : Option String) = none
        ∧ (some (0 : ℚ)) = none) := by simp
    rw [findNotes, if_neg h0, if_neg h]
    simp [truthyStr, truthyQ]

/-- C10 witness: with 0 as the only filter, a document holding a record of
stored amount 0 still reports no-matches, and with a category filter
present the zero amount filter is ignored. -/
theorem spec_C10_witness :
    findNotes ⟨[⟨"2024-01-15", "income", .num 0, .str ""⟩], 0⟩ none none
        (some 0) = (⟨[⟨"2024-01-15", "income", .num 0, .str ""⟩], 0⟩, [.noMatches])
    ∧ findNotes ⟨[⟨"2024-01-15", "income", .num 0, .str ""⟩], 0⟩ none
        (some "2") (some 0)
      = findNotes ⟨[⟨"2024-01-15", "income", .num 0, .str ""⟩], 0⟩ none
        (some "2") none :=
  ⟨(spec_C10 ⟨[⟨"2024-01-15", "income", .num 0, .str ""⟩], 0⟩ none none
      (by decide)).2,
    (spec_C10 ⟨[⟨"2024-01-15", "income", .num 0, .str ""⟩], 0⟩ none
      (some "2") (by decide)).1 (Or.inr (by simp))⟩

/-- C5: the find amount filter matches on the absolute value of the stored
amount (a submitted non-negative X matches both a waste record stored as
-X and an income record stored as +X), while the amount stage of the match
procedure used by update/delete compares the signed derived amount: the
waste target derived from submitted X is -X and matches only stored
amount -X, never +X (for X > 0). -/
theorem spec_C5 (X : ℚ) (hX : 0 ≤ X) :
    (∀ n : Note, findAmtPred X n = true ↔ absAmt n.amount = X)
    ∧ (∀ d ds, findAmtPred X ⟨d, "waste", .num (-X), ds⟩ = true)
    ∧ (∀ d ds, findAmtPred X ⟨d, "income", .num X, ds⟩ = true)
    ∧ (∀ desc, (checkCatAmtDesc "1" X desc).2.1 = .num (-X))
    ∧ (∀ n : Note, matchAmtPred (.num (-X)) n = true ↔ toQ n.amount = -X)
    ∧ (0 < X → ∀ d ds, matchAmtPred (.num (-X)) ⟨d, "income", .num X, ds⟩ = false) := by
  refine ⟨fun n => by simp [findAmtPred], ?_, ?_, ?_,
    fun n => by simp [matchAmtPred, eqAmt, toQ], ?_⟩
  · intro d ds
    simp only [findAmtPred, absAmt, toQ, beq_iff_eq]
    rcases lt_or_eq_of_le hX with h | h
    · rw [if_pos (by linarith)]; ring
    · rw [← h]; norm_num
  · intro d ds
    simp only [findAmtPred, absAmt, toQ, beq_iff_eq]
    rw [if_neg (by linarith)]
  · intro desc
    rw [checkCatAmtDesc, if_neg (by linarith), if_pos rfl]
  · intro hXpos d ds
    simp only [matchAmtPred, eqAmt, toQ, decide_eq_false_iff_not]
    intro h
    linarith

/-- C5 witness: with X = 40, the find filter accepts both the waste record
stored as -40 and the income record stored as +40, while the match-stage
amount test accepts only the signed value. -/
theorem spec_C5_witness :
    findAmtPred 40 ⟨"2024-01-15", "waste", .num (-40), .str ""⟩ = true
    ∧ findAmtPred 40 ⟨"2024-01-15", "income", .num 40, .str ""⟩ = true
    ∧ matchAmtPred (.num (-40)) ⟨"2024-01-15", "income", .num 40, .str ""⟩ = false :=
  ⟨(spec_C5 40 (by norm_num)).2.1 "2024-01-15" (.str ""),
    (spec_C5 40 (by norm_num)).2.2.1 "2024-01-15" (.str ""),
    (spec_C5 40 (by norm_num)).2.2.2.2.2 (by norm_num) "2024-01-15" (.str "")⟩

/-- C7: when the match procedure succeeds it returns the head of the final
narrowed set, which is the first record of the document satisfying all
four stage predicates, together with that record's position in the
original document ordering; among records identical in all four fields
the earliest-inserted position is returned (the `.index` call resolves to
the first Python-equal record, which coincides with the first match). -/
theorem spec_C7 (notes : List Note) (date cat : String) (amt : AmtVal)
    (desc : DescVal) (r : Note) (i : ℕ)
    (h : filterRecords notes date cat amt desc = .ok (r, i)) :
    (stage4 notes date cat amt desc).head? = some r
    ∧ i = indexOfNote r notes
    ∧ i = notes.findIdx (matchPred date cat amt desc)
    ∧ ∃ hi : i < notes.length,
        notes.get ⟨i, hi⟩ = r
        ∧ matchPred date cat amt desc r = true
        ∧ ∀ j (hj : j < notes.length), j < i →
            matchPred date cat amt desc (notes.get ⟨j, hj⟩) = false := by
  rw [filterRecords] at h
  by_cases h1 : stage1 notes date = []
  · rw [if_pos h1] at h; exact absurd h (by simp)
  rw [if_neg h1] at h
  by_cases h2 : stage2 notes date cat = []
  · rw [if_pos h2] at h; exact absurd h (by simp)
  rw [if_neg h2] at h
  by_cases h3 : stage3 notes date cat amt = []
  · rw [if_pos h3] at h; exact absurd h (by simp)
  rw [if_neg h3] at h
  cases h4 : stage4 notes date cat amt desc with
  | nil => rw [h4] at h; exact absurd h (by simp)
  | cons r0 t =>
    rw [h4] at h
    obtain ⟨rfl, hidx⟩ : r0 = r ∧ indexOfNote r0 notes = i := by
      simpa using h
    have hfilter : notes.filter (matchPred date cat amt desc) = r0 :: t := by
      rw [← stage4_eq_filter]; exact h4
    have compat : ∀ a b, noteEqPy a b = true →
        matchPred date cat amt desc a = matchPred date cat amt desc b :=
      fun a b hab => matchPred_congr hab date cat amt desc
    obtain ⟨heq, hlt, hget⟩ := index_of_filter_head hfilter compat
    have hP : matchPred date cat amt desc r0 = true := by
      have hmem : r0 ∈ notes.filter (matchPred date cat amt desc) := by
        rw [hfilter]; exact List.mem_cons_self r0 t
      exact (List.mem_filter.mp hmem).2
    have hi' : i = notes.findIdx (matchPred date cat amt desc) := by
      rw [← hidx, indexOfNote, heq]
    refine ⟨rfl, hidx.symm, hi', ?_⟩
    refine ⟨hi' ▸ hlt, ?_, hP, ?_⟩
    · rw [← hget]
      congr 1
      exact Fin.ext hi'
    · intro j hj hji
      have hjf : j < notes.findIdx (matchPred date cat amt desc) := hi' ▸ hji
      have := List.not_of_lt_findIdx hjf
      simpa using this

/-- C7 witness: a document with two identical waste records and the
matching target returns the first of the two, at position 0. -/
theorem spec_C7_witness :
    filterRecords
        [⟨"2024-01-15", "waste", .num (-40), .str ""⟩,
         ⟨"2024-01-15", "waste", .num (-40), .str ""⟩]
        "2024-01-15" "waste" (.num (-40)) (.str "")
      = .ok (⟨"2024-01-15", "waste", .num (-40), .str ""⟩, 0)
    ∧ (0 : ℕ) = indexOfNote ⟨"2024-01-15", "waste", .num (-40), .str ""⟩
        [⟨"2024-01-15", "waste", .num (-40), .str ""⟩,
         ⟨"2024-01-15", "waste", .num (-40), .str ""⟩] :=
  ⟨by decide,
    (spec_C7
      [⟨"2024-01-15", "waste", .num (-40), .str ""⟩,
       ⟨"2024-01-15", "waste", .num (-40), .str ""⟩]
      "2024-01-15" "waste" (.num (-40)) (.str "")
      ⟨"2024-01-15", "waste", .num (-40), .str ""⟩ 0 (by decide)).2.1⟩

/-- C8: every record written through create or update satisfies the sign
invariant — category waste stores the negation of the submitted amount
(non-positive) and category income stores the submitted amount
(non-negative) — and for valid creates the absolute stored amount equals
the submitted amount. -/
theorem spec_C8 (s : MState) (today c : String) (a : ℚ) (d : DescVal)
    (pd pc : String) (pa : ℚ) (nc : String) (na : ℚ) (pdsc ndsc : DescVal)
    (hc : c = "1" ∨ c = "2") (hnc : nc = "1" ∨ nc = "2") :
    (∀ n ∈ (createNote s today (some c) (some a) d).1.notes,
      n ∈ s.notes ∨
        ((n.category = "waste" → n.amount = .num (-a) ∧ toQ n.amount ≤ 0)
          ∧ (n.category = "income" → n.amount = .num a ∧ 0 ≤ toQ n.amount)
          ∧ absAmt n.amount = a))
    ∧ (∀ n ∈ (updateNote s today (some pd) (some pc) (some pa) (some nc)
          (some na) pdsc ndsc).1.notes,
        n ∈ s.notes ∨
          ((n.category = "waste" → n.amount = .num (-na) ∧ toQ n.amount ≤ 0)
            ∧ (n.category = "income" → n.amount = .num na ∧ 0 ≤ toQ n.amount))) := by
  constructor
  · intro n hn
    rcases lt_trichotomy a 0 with hneg | hzero | hpos
    · rw [createNote_neg hneg] at hn
      exact Or.inl hn
    · subst hzero
      rw [createNote_zero] at hn
      exact Or.inl hn
    · rw [createNote_pos hpos, createTextDocument_notes] at hn
      rcases List.mem_append.mp hn with hmem | hmem
      · exact Or.inl hmem
      · have hn2 : n = createNoteTemplate today (checkCatAmtDesc c a d).1
            (checkCatAmtDesc c a d).2.1 (checkCatAmtDesc c a d).2.2 := by
          simpa using hmem
        right
        rcases checkCatAmtDesc_cases c a d with ⟨hneg, hck⟩ | ⟨hge, hc1, hck⟩
          | ⟨hge, hc1, hck⟩
        · exact absurd hneg (by linarith)
        · rw [hck] at hn2
          subst hn2
          refine ⟨fun _ => ⟨rfl, by simp [createNoteTemplate, toQ]; linarith⟩,
            fun h => by simp [createNoteTemplate] at h, ?_⟩
          simp only [createNoteTemplate, absAmt, toQ]
          rw [if_pos (by linarith)]
          ring
        · rw [hck] at hn2
          subst hn2
          refine ⟨fun h => by simp [createNoteTemplate] at h,
            fun _ => ⟨rfl, by simp [createNoteTemplate, toQ]; linarith⟩, ?_⟩
          simp only [createNoteTemplate, absAmt, toQ]
          rw [if_neg (by linarith)]
  · intro n hn
    rcases updateNote_shape s today pd pc pa nc na pdsc ndsc with hsh | ⟨i, hsh⟩
    · rw [hsh] at hn; exact Or.inl hn
    · rw [hsh, createTextDocument_notes] at hn
      rcases List.mem_or_eq_of_mem_set hn with hmem | hn2
      · exact Or.inl hmem
      · right
        rcases checkCatAmtDesc_cases nc na ndsc with ⟨hneg, hck⟩
          | ⟨hge, hc1, hck⟩ | ⟨hge, hc1, hck⟩
        · rw [hck] at hn2
          subst hn2
          rcases hnc with rfl | rfl <;>
            exact ⟨fun h => by simp [createNoteTemplate] at h,
              fun h => by simp [createNoteTemplate] at h⟩
        · rw [hck] at hn2
          subst hn2
          exact ⟨fun _ => ⟨rfl, by simp [createNoteTemplate, toQ]; linarith⟩,
            fun h => by simp [createNoteTemplate] at h⟩
        · rw [hck] at hn2
          subst hn2
          exact ⟨fun h => by simp [createNoteTemplate] at h,
            fun _ => ⟨rfl, by simp [createNoteTemplate, toQ]; linarith⟩⟩

/-- C8 witness: creating a waste record of submitted amount 40 stores
amount -40 with absolute value 40, and updating to an income record of
submitted amount 25 stores amount +25. -/
theorem spec_C8_witness :
    (∀ n ∈ (createNote ⟨[⟨"2024-01-15", "waste", .num (-40), .str ""⟩], -40⟩
        "2025-01-01" (some "1") (some 40) (.str "")).1.notes,
      n ∈ (⟨[⟨"2024-01-15", "waste", .num (-40), .str ""⟩], -40⟩ : MState).notes ∨
        ((n.category = "waste" → n.amount = .num (-40) ∧ toQ n.amount ≤ 0)
          ∧ (n.category = "income" → n.amount = .num 40 ∧ 0 ≤ toQ n.amount)
          ∧ absAmt n.amount = 40))
    ∧ (∀ n ∈ (updateNote ⟨[⟨"2024-01-15", "waste", .num (-40), .str ""⟩], -40⟩
          "2025-01-01" (some "2024-01-15") (some "1") (some 40) (some "2")
          (some 25) (.str "") (.str "")).1.notes,
        n ∈ (⟨[⟨"2024-01-15", "waste", .num (-40), .str ""⟩], -40⟩ : MState).notes ∨
          ((n.category = "waste" → n.amount = .num (-25) ∧ toQ n.amount ≤ 0)
            ∧ (n.category = "income" → n.amount = .num 25 ∧ 0 ≤ toQ n.amount))) :=
  spec_C8 ⟨[⟨"2024-01-15", "waste", .num (-40), .str ""⟩], -40⟩ "2025-01-01"
    "1" 40 (.str "") "2024-01-15" "1" 40 "2" 25 (.str "") (.str "")
    (Or.inl rfl) (Or.inr rfl)

theorem createTextDocument_balance {s : MState} (h : s.notes ≠ []) :
    (createTextDocument s).balance = getCurrentBalance s.notes := by
  rw [createTextDocument, if_neg h]

/-- C1: `update_note` re-checks the previous amount instead of the new one
(line 117 of views.py), so an update whose previous fields match but whose
new amount is negative prints the invalid-amount message and then still
writes: the stored record is replaced by one whose amount is the Python
boolean `False` (non-numeric) and whose category is the raw code "2". -/
theorem spec_C1 :
    (updateNote ⟨[⟨"2024-01-15", "waste", .num (-5), .str ""⟩], -5⟩
        "2025-01-01" (some "2024-01-15") (some "1") (some 5) (some "2")
        (some (-3)) (.str "") (.str "")).2
      = [.invalidAmount,
          .updated ⟨"2024-01-15", "waste", .num (-5), .str ""⟩
            ⟨"2025-01-01", "2", .falseV, .str ""⟩]
    ∧ (updateNote ⟨[⟨"2024-01-15", "waste", .num (-5), .str ""⟩], -5⟩
        "2025-01-01" (some "2024-01-15") (some "1") (some 5) (some "2")
        (some (-3)) (.str "") (.str "")).1.notes
      = [⟨"2025-01-01", "2", .falseV, .str ""⟩]
    ∧ (⟨"2025-01-01", "2", .falseV, .str ""⟩ : Note).amount = .falseV
    ∧ [(⟨"2025-01-01", "2", .falseV, .str ""⟩ : Note)]
      ≠ [⟨"2024-01-15", "waste", .num (-5), .str ""⟩] := by decide

/-- C3 counterexample: `create_note` with category 2 and amount 0 neither
appends a record nor reports anything — the zero amount is falsy and the
call aborts silently, so the claim's "appends exactly one new record for
amount = 0" fails. -/
theorem spec_C3_cex :
    (createNote ⟨[], 0⟩ "2025-01-01" (some "2") (some 0) (.str "")).1.notes = []
    ∧ (createNote ⟨[], 0⟩ "2025-01-01" (some "2") (some 0) (.str "")).1.notes
        ≠ [] ++ [createNoteTemplate "2025-01-01" "income" (.num 0) (.str "")]
    ∧ (createNote ⟨[], 0⟩ "2025-01-01" (some "2") (some 0) (.str "")).2 = [] := by
  decide

/-- C3 amended: with category in {1,2}, a negative amount reports the
invalid amount and leaves the state unchanged; amount 0 aborts silently
with no append and no message; a positive amount appends exactly one
record with the derived sign, category label, current date and joined
description. -/
theorem spec_C3_amended (s : MState) (today c : String) (a : ℚ)
    (d : DescVal) (hc : c = "1" ∨ c = "2") :
    (a < 0 → createNote s today (some c) (some a) d = (s, [.invalidAmount]))
    ∧ (a = 0 → createNote s today (some c) (some a) d = (s, []))
    ∧ (0 < a →
        (createNote s today (some c) (some a) d).1.notes
          = s.notes ++ [createNoteTemplate today
              (if c = "1" then "waste" else "income")
              (.num (if c = "1" then -a else a)) (joinDesc d)]
        ∧ (createNote s today (some c) (some a) d).2
          = [.created (createNoteTemplate today
              (if c = "1" then "waste" else "income")
              (.num (if c = "1" then -a else a)) (joinDesc d))]) := by
  refine ⟨fun h => createNote_neg h s today c d,
    fun h => by subst h; exact createNote_zero s today c d,
    fun h => ?_⟩
  have hck : checkCatAmtDesc c a d
      = ((if c = "1" then "waste" else "income"),
          .num (if c = "1" then -a else a), joinDesc d) := by
    by_cases hc1 : c = "1" <;>
      simp [checkCatAmtDesc, hc1, not_lt.mpr h.le]
  rw [createNote_pos h, hck]
  exact ⟨by rw [createTextDocument_notes], rfl⟩

/-- C3 witness for the amended claim: amount -3 reports the invalid
amount with no change, and amount 40 with category 1 appends the waste
record stored as -40. -/
theorem spec_C3_amended_witness :
    createNote ⟨[], 0⟩ "2025-01-01" (some "1") (some (-3)) (.str "")
      = (⟨[], 0⟩, [.invalidAmount])
    ∧ (createNote ⟨[], 0⟩ "2025-01-01" (some "1") (some 40) (.str "")).1.notes
      = [] ++ [createNoteTemplate "2025-01-01"
          (if "1" = "1" then "waste" else "income")
          (.num (if "1" = "1" then -40 else 40)) (joinDesc (.str ""))] :=
  ⟨(spec_C3_amended ⟨[], 0⟩ "2025-01-01" "1" (-3) (.str "")
      (Or.inl rfl)).1 (by norm_num),
    ((spec_C3_amended ⟨[], 0⟩ "2025-01-01" "1" 40 (.str "")
      (Or.inl rfl)).2.2 (by norm_num)).1⟩

/-- C6 counterexample: `find_notes` never validates the amount filter; a
find whose only filter is the negative amount -5, on a store holding an
income record of amount 5, reports no-matches rather than the
invalid-amount failure. -/
theorem spec_C6_cex :
    (findNotes ⟨[⟨"2024-01-15", "income", .num 5, .str ""⟩], 5⟩ none none
        (some (-5))).2 = [.noMatches]
    ∧ Msg.noMatches ≠ Msg.invalidAmount := by decide

/-- C6 amended: `find_notes` performs no amount validation; a negative
amount is applied as an ordinary filter, which no record can satisfy on
its absolute value, so on a non-empty document (with a valid date filter
when one is supplied) the call reports no-matches — never the
invalid-amount failure. -/
theorem spec_C6_amended (s : MState) (d c : Option String) (a : ℚ)
    (ha : a < 0) (hne : s.notes ≠ [])
    (hd : truthyStr d = true → checkDate (d.getD "") = true) :
    findNotes s d c (some a) = (s, [.noMatches]) := by
  have hpt : ∀ n : Note, findAmtPred a n = false := by
    intro n
    simp only [findAmtPred, beq_eq_false_iff_ne, ne_eq, absAmt]
    split <;> intro hq <;> linarith [hq]
  have hfilter : ∀ l : List Note, l.filter (findAmtPred a) = [] := by
    intro l
    rw [List.filter_eq_nil_iff]
    intro n _
    simp [hpt n]
  have h0 : ¬(d = none ∧ c = none ∧ (some a : Option ℚ) = none) := by simp
  have hdate : ¬(truthyStr d = true ∧ ¬ checkDate (d.getD "") = true) :=
    fun ⟨h1, h2⟩ => h2 (hd h1)
  have ht : truthyQ (some a) = true := by
    simp only [truthyQ, decide_eq_true_eq]
    exact ne_of_lt ha
  simp only [findNotes, if_neg h0, if_neg hne, if_neg hdate, ht, if_pos,
    if_true, hfilter]
  simp [hpt]

/-- C6 witness for the amended claim: a find with date and negative
amount filters on a one-record store reports no-matches. -/
theorem spec_C6_amended_witness :
    ((-40 : ℚ) < 0)
    ∧ findNotes ⟨[⟨"2024-01-15", "income", .num 5, .str ""⟩], 5⟩
        (some "2024-01-15") none (some (-40))
      = (⟨[⟨"2024-01-15", "income", .num 5, .str ""⟩], 5⟩, [.noMatches]) :=
  ⟨by norm_num,
    spec_C6_amended ⟨[⟨"2024-01-15", "income", .num 5, .str ""⟩], 5⟩
      (some "2024-01-15") none (-40) (by norm_num) (by decide)
      (fun _ => by decide)⟩

/-- C2 counterexample: within one CLI invocation that deletes the only
record and then shows the balance, the deletion empties the document (so
the rounded sum is 0) but `show_balance` displays the stale cached value
100: the displayed balance does not reflect the document as mutated. -/
theorem spec_C2_cex :
    (runCLI [⟨"2024-01-15", "income", .num 100, .str ""⟩] "2025-01-01"
        { deleteFlag := true, showFlag := true, date := some "2024-01-15",
          cat := some "2", amt := some 100 }).2
      = [.deleted ⟨"2024-01-15", "income", .num 100, .str ""⟩,
          .balanceShown 100]
    ∧ (runCLI [⟨"2024-01-15", "income", .num 100, .str ""⟩] "2025-01-01"
        { deleteFlag := true, showFlag := true, date := some "2024-01-15",
          cat := some "2", amt := some 100 }).1.notes = []
    ∧ round2 (sumAmounts []) = 0
    ∧ (100 : ℚ) ≠ 0 := by
  have hb : getCurrentBalance [⟨"2024-01-15", "income", .num 100, .str ""⟩]
      = 100 := by
    norm_num [getCurrentBalance, round2, pyRound, sumAmounts, toQ]
  have hd : deleteNote ⟨[⟨"2024-01-15", "income", .num 100, .str ""⟩], 100⟩
      (some "2024-01-15") (some "2") (some 100) (.str "")
      = (⟨[], 100⟩, [.deleted ⟨"2024-01-15", "income", .num 100, .str ""⟩]) := by
    decide
  refine ⟨?_, ?_, by norm_num [round2, pyRound, sumAmounts], by norm_num⟩ <;>
    simp [runCLI, step, hb, hd, showBalance]

/-- C2 amended: `show_balance` displays the cached balance; the cache is
freshly recomputed from the mutated document by create, update, and a
delete that leaves records (through the text-export refresh), and
`get_current_balance` always equals the rounded sum, but a delete that
empties the document skips the refresh and leaves the stale pre-delete
balance in place. -/
theorem spec_C2_amended (s : MState) (today : String) (c : Option String)
    (a : Option ℚ) (d : DescVal) (dt : Option String) (pc nc : String)
    (pa na : ℚ) (ndsc : DescVal) (dd cc : String) (aa : ℚ) :
    (showBalance s).2 = [.balanceShown s.balance]
    ∧ (∀ notes : List Note, getCurrentBalance notes = round2 (sumAmounts notes))
    ∧ ((createNote s today c a d).1.notes ≠ s.notes →
        (createNote s today c a d).1.balance
          = getCurrentBalance (createNote s today c a d).1.notes)
    ∧ ((updateNote s today dt (some pc) (some pa) (some nc) (some na)
          d ndsc).1.notes ≠ s.notes →
        (updateNote s today dt (some pc) (some pa) (some nc) (some na)
          d ndsc).1.balance
          = getCurrentBalance ((updateNote s today dt (some pc) (some pa)
              (some nc) (some na) d ndsc).1.notes))
    ∧ (s.notes ≠ [] →
        (deleteNote s (some dd) (some cc) (some aa) d).1.notes ≠ s.notes →
        (deleteNote s (some dd) (some cc) (some aa) d).1.notes ≠ [] →
        (deleteNote s (some dd) (some cc) (some aa) d).1.balance
          = getCurrentBalance ((deleteNote s (some dd) (some cc)
              (some aa) d).1.notes))
    ∧ (s.notes ≠ [] →
        (deleteNote s (some dd) (some cc) (some aa) d).1.notes = [] →
        (deleteNote s (some dd) (some cc) (some aa) d).1.balance
          = s.balance) := by
  refine ⟨rfl, ?_, ?_, ?_, ?_, ?_⟩
  · intro notes
    rw [getCurrentBalance]
    split
    · rename_i hnil
      rw [hnil]
      norm_num [round2, pyRound, sumAmounts]
    · rfl
  · intro hch
    cases c with
    | none =>
      exact absurd (show (createNote s today none a d).1.notes = s.notes
        from rfl) hch
    | some c' =>
      cases a with
      | none =>
        exact absurd (show (createNote s today (some c') none d).1.notes
          = s.notes from rfl) hch
      | some a' =>
        rcases createNote_shape s today c' a' d with hsh | hsh
        · rw [hsh] at hch
          exact absurd rfl hch
        · rw [hsh]
          have hap : s.notes ++ [createNoteTemplate today
              (checkCatAmtDesc c' a' d).1 (checkCatAmtDesc c' a' d).2.1
              (checkCatAmtDesc c' a' d).2.2] ≠ [] := by simp
          rw [createTextDocument_notes, createTextDocument_balance hap]
  · intro hch
    cases dt with
    | none =>
      exact absurd (show (updateNote s today none (some pc) (some pa)
        (some nc) (some na) d ndsc).1.notes = s.notes from rfl) hch
    | some dt' =>
      rcases updateNote_shape s today dt' pc pa nc na d ndsc with hsh | ⟨i, hsh⟩
      · rw [hsh] at hch
        exact absurd rfl hch
      · rw [hsh]
        have hset : s.notes.set i (createNoteTemplate today
            (checkCatAmtDesc nc na ndsc).1 (checkCatAmtDesc nc na ndsc).2.1
            (checkCatAmtDesc nc na ndsc).2.2) ≠ [] := by
          intro hnil
          rw [hsh, createTextDocument_notes] at hch
          apply hch
          have hsn : s.notes = [] := by
            cases hs : s.notes with
            | nil => rfl
            | cons x xs => rw [hs] at hnil; simp at hnil
          rw [hsn] at hnil ⊢
          exact hnil
        rw [createTextDocument_notes, createTextDocument_balance hset]
  · intro hne hch hnn
    rcases deleteNote_shape s dd cc aa d with hsh | ⟨i, ⟨hnil, hsh⟩ | ⟨hnil, hsh⟩⟩
    · rw [hsh] at hch
      exact absurd rfl hch
    · rw [hsh] at hnn
      exact absurd hnil hnn
    · rw [hsh]
      rw [createTextDocument_notes, createTextDocument_balance hnil]
  · intro hne hch
    rcases deleteNote_shape s dd cc aa d with hsh | ⟨i, ⟨hnil, hsh⟩ | ⟨hnil, hsh⟩⟩
    · rw [hsh] at hch
      exact absurd hch hne
    · rw [hsh]
    · rw [hsh, createTextDocument_notes] at hch
      exact absurd hch hnil

/-- C2 witness for the amended claim: creating a record on the empty
store refreshes the cached balance, while deleting the only record leaves
the stale pre-delete balance 100 in place. -/
theorem spec_C2_amended_witness :
    ((createNote ⟨[], 0⟩ "2025-01-01" (some "2") (some 7) (.str "")).1.balance
      = getCurrentBalance
          (createNote ⟨[], 0⟩ "2025-01-01" (some "2") (some 7) (.str "")).1.notes)
    ∧ (deleteNote ⟨[⟨"2024-01-15", "income", .num 100, .str ""⟩], 100⟩
        (some "2024-01-15") (some "2") (some 100) (.str "")).1.balance = 100 :=
  ⟨(spec_C2_amended ⟨[], 0⟩ "2025-01-01" (some "2") (some 7) (.str "")
      none "1" "1" 0 0 (.str "") "x" "x" 0).2.2.1 (by decide),
    (spec_C2_amended ⟨[⟨"2024-01-15", "income", .num 100, .str ""⟩], 100⟩
      "2025-01-01" none none (.str "") none "1" "1" 0 0 (.str "")
      "2024-01-15" "2" 100).2.2.2.2.2 (by decide) (by decide)⟩

end NoteManager
